import Mathlib

/-!
Verification of the WebGL Game of Life core (gol.js, glsl/gol.frag).

The simulation state lives in two equally sized textures, `front` and
`back`.  The fragment shader `gol.frag` reads the `front` texture with
`gl.REPEAT` wrapping — toroidal addressing — and writes the next
generation; `gol.js` drives the pass and swaps the two textures.

The shallow embedding below translates the pixel-level code directly:

* a texture is a `Grid`: width, height and a row-major `List Bool` of
  cell values (a texel holds byte 0 or 255; logically a boolean);
* `Grid.get` is the shader's `get(offset)`: an `int` read of the `state`
  sampler at a (possibly out of range) coordinate, wrapped by the
  texture's `gl.REPEAT` mode, i.e. taken modulo width/height;
* `nextValue` is the shader's `main`;
* JavaScript typed-array semantics are kept: out-of-range writes are
  ignored (`List.set` out of range is a no-op) and out-of-range reads
  give `undefined`, which the arithmetic treats as 0 / `false`
  (`List.getD`).
-/

/-- `int(texture2D(...).r)` of a texel holding a boolean: 1 for alive, 0 for dead. -/
def bitOf (b : Bool) : Nat := if b then 1 else 0

/-- One simulation texture: dimensions and a row-major cell list. -/
structure Grid where
  w : Nat
  h : Nat
  cells : List Bool
deriving DecidableEq, Repr

/-- Direct row-major read of cell `(i, j)` (no wraparound); out of range reads dead. -/
def Grid.cellAt (g : Grid) (i j : Nat) : Bool :=
  g.cells.getD (j * g.w + i) false

/-- The shader's `get`: sample the `state` texture at an integer coordinate.
`gl.REPEAT` wrapping makes the sample coordinate wrap modulo the texture
size, so the read is toroidal.  Returns the texel as an `int` (0 or 1). -/
def Grid.get (g : Grid) (x y : Int) : Nat :=
  bitOf (g.cellAt ((x % (g.w : Int)).toNat) ((y % (g.h : Int)).toNat))

/-- The shader's `sumNhbrs`: the eight neighbor samples, in source order. -/
def sumNhbrs (g : Grid) (x y : Int) : Nat :=
  g.get (x - 1) (y - 1) +
  g.get (x - 1) y +
  g.get (x - 1) (y + 1) +
  g.get x (y - 1) +
  g.get x (y + 1) +
  g.get (x + 1) (y - 1) +
  g.get (x + 1) y +
  g.get (x + 1) (y + 1)

/-- The eight `(dx, dy)` offsets the shader samples, in source order. -/
def neighborOffsets : List (Int × Int) :=
  [(-1, -1), (-1, 0), (-1, 1), (0, -1), (0, 1), (1, -1), (1, 0), (1, 1)]

/-- The shader's `main` for one fragment:
`(sumNhbrs == 3 || (centre == 1 && sumNhbrs == 2)) ? 1.0 : 0.0`,
where `centre = get(vec2(0,0))`. -/
def nextValue (g : Grid) (x y : Int) : Bool :=
  sumNhbrs g x y == 3 || (g.get x y == 1 && sumNhbrs g x y == 2)

/-- The full next generation: the shader run over every fragment of the grid. -/
def nextGrid (g : Grid) : Grid :=
  ⟨g.w, g.h, (List.range (g.w * g.h)).map (fun i => nextValue g (↑(i % g.w)) (↑(i / g.w)))⟩

/-- The 3×3 grid whose only live cell is `(0, 0)` (row-major index 0). -/
def g3 : Grid :=
  ⟨3, 3, [true, false, false, false, false, false, false, false, false]⟩

/-- The GOL object's texture pair: `this.textures.front` and `this.textures.back`. -/
structure GolState where
  front : Grid
  back : Grid
deriving DecidableEq, Repr

/-- `GOL.prototype.swap`: exchange the front/back texture roles (no data copy). -/
def GOL.swap (st : GolState) : GolState := ⟨st.back, st.front⟩

/-- One fragment of the step pass: with the framebuffer attached to `back`
and `front` bound as the `state` sampler, the shader writes `nextValue` of
`front` into cell `i` of `back`. -/
def passWrite (front back : Grid) (i : Nat) : Grid :=
  ⟨back.w, back.h, back.cells.set i (nextValue front (↑(i % front.w)) (↑(i / front.w)))⟩

/-- The step pass after its first `n` fragment writes. -/
def stepPassAux (front back : Grid) (n : Nat) : Grid :=
  (List.range n).foldl (passWrite front) back

/-- `GOL.prototype.step`: attach the framebuffer to `back`, bind `front` as
the input texture, run the `gol.frag` shader over every cell, then `swap`. -/
def GOL.step (st : GolState) : GolState :=
  GOL.swap ⟨st.front, stepPassAux st.front st.back (st.front.w * st.front.h)⟩

/-- One iteration of the `GOL.compact` loop:
`compact[ii] |= bit << shift` with `ii = i / 8`, `shift = i % 8` and
`bit = state[i] ? 1 : 0`.  JavaScript typed-array semantics are kept: a
read past the end gives `undefined` (treated as 0 by `|`), and a write past
the end is ignored (`List.set` out of range is a no-op). -/
def compactF (state : List Bool) (acc : List Nat) (i : Nat) : List Nat :=
  acc.set (i / 8) (acc.getD (i / 8) 0 ||| (bitOf (state.getD i false) <<< (i % 8)))

/-- The `GOL.compact` loop after `n` iterations.  The accumulator starts as
`new Uint8Array(state.length / 8)`: JavaScript `ToIndex` truncates the
fractional length, so the array has `⌊length/8⌋` zero bytes. -/
def compactAux (state : List Bool) (n : Nat) : List Nat :=
  (List.range n).foldl (compactF state) (List.replicate (state.length / 8) 0)

/-- `GOL.compact`: pack a boolean state into a byte list, storing bit `i`
of the stream at bit position `i % 8` of byte `i / 8`. -/
def GOL.compact (state : List Bool) : List Nat := compactAux state state.length

/-- `GOL.expand`: unpack a byte list into exactly `8 * length` booleans,
reading `(compact[ii] >> shift) & 1` for each bit. -/
def GOL.expand (buffer : List Nat) : List Bool :=
  (List.range (buffer.length * 8)).map
    (fun i => ((buffer.getD (i / 8) 0 >>> (i % 8)) &&& 1) == 1)

/-- The byte written for one rgba channel: `state[i] ? 255 : 0`. -/
def v255 (b : Bool) : Nat := if b then 255 else 0

/-- One iteration of the `GOL.prototype.set` loop: write cell `i`'s four
rgba bytes (`r = g = b = state[i] ? 255 : 0`, `a = 255`) at offset `4*i`;
writes past the typed array's end are ignored. -/
def rgbaF (state : List Bool) (rg : List Nat) (i : Nat) : List Nat :=
  (((rg.set (4 * i) (v255 (state.getD i false))).set (4 * i + 1)
        (v255 (state.getD i false))).set (4 * i + 2) (v255 (state.getD i false))).set
    (4 * i + 3) 255

/-- The rgba staging buffer of `GOL.prototype.set` after `n` loop
iterations, starting from the zeroed `Uint8Array(w * h * 4)`. -/
def rgbaAux (area : Nat) (state : List Bool) (n : Nat) : List Nat :=
  (List.range n).foldl (rgbaF state) (List.replicate (area * 4) 0)

/-- `GOL.prototype.set`: build the rgba buffer from the boolean state (the
loop runs over `state.length`, whatever it is — there is no size check) and
upload it over the whole front texture; a texel is alive iff its red byte
is 255.  The back texture is untouched. -/
def GOL.set (st : GolState) (state : List Bool) : GolState :=
  ⟨⟨st.front.w, st.front.h,
      (List.range (st.front.w * st.front.h)).map
        (fun j => (rgbaAux (st.front.w * st.front.h) state state.length).getD (4 * j) 0 == 255)⟩,
    st.back⟩

/-- `Igloo.Texture.subset` of a single texel, with `texSubImage2D`
semantics: the update is rejected (`INVALID_VALUE`, no JavaScript
exception) unless the 1×1 region lies inside the texture; otherwise the
texel is written. -/
def subsetTexel (g : Grid) (x y : Int) (b : Bool) : Grid :=
  if 0 ≤ x ∧ x + 1 ≤ (g.w : Int) ∧ 0 ≤ y ∧ y + 1 ≤ (g.h : Int) then
    ⟨g.w, g.h, g.cells.set (y.toNat * g.w + x.toNat) b⟩
  else g

/-- `GOL.prototype.poke`: write one cell of the front texture via
`subset([v, v, v, 255], x, y, 1, 1)`.  It performs no bounds check of its
own and has no failure path — it always returns `this`. -/
def GOL.poke (st : GolState) (x y : Int) (state : Bool) : GolState :=
  ⟨subsetTexel st.front x y state, st.back⟩

/-- `GOL.prototype.setRandom`: `p` defaults to 0.5 when `null`; cell `i`
compares the `i`-th call of `Math.random()` — modelled as an explicit
stream `rng` of draws — against `p`, and the boolean array is uploaded with
`set`. -/
def GOL.setRandom (st : GolState) (rng : Nat → ℚ) (p : Option ℚ) : GolState :=
  GOL.set st
    ((List.range (st.front.w * st.front.h)).map (fun i => decide (rng i < p.getD (1 / 2))))

/-- `GOL.prototype.setEmpty`: `set(new Uint8Array(size))` — every cell dead. -/
def GOL.setEmpty (st : GolState) : GolState :=
  GOL.set st (List.replicate (st.front.w * st.front.h) false)

/-- A concrete 3×3 state pair for counterexamples. -/
def st3 : GolState := ⟨g3, ⟨3, 3, List.replicate 9 false⟩⟩

/-- A concrete 2×2 state pair (front all alive) for counterexamples. -/
def st2 : GolState := ⟨⟨2, 2, [true, true, true, true]⟩, ⟨2, 2, [false, false, false, false]⟩⟩

/-- The browser's interval table plus the GOL object's `timer` field:
`fresh` is the id the next `setInterval` call will hand out, `active` is
the list of currently scheduled intervals. -/
structure Sched where
  timer : Option Nat
  active : List Nat
  fresh : Nat
deriving DecidableEq, Repr

/-- After construction: `this.timer = null`, nothing scheduled. -/
def Sched.init : Sched := ⟨none, [], 0⟩

/-- `GOL.prototype.start`: only when `this.timer == null` does it call
`setInterval` and store the handle; otherwise it does nothing. -/
def Sched.start (s : Sched) : Sched :=
  if s.timer = none then ⟨some s.fresh, s.fresh :: s.active, s.fresh + 1⟩ else s

/-- `GOL.prototype.stop`: `clearInterval(this.timer)` (a no-op when the
handle is `null`), then `this.timer = null`. -/
def Sched.stop (s : Sched) : Sched :=
  ⟨none,
    match s.timer with
    | some t => s.active.filter (fun i => i != t)
    | none => s.active,
    s.fresh⟩

/-- A user-visible scheduler call. -/
inductive SchedOp where
  | start : SchedOp
  | stop : SchedOp
deriving DecidableEq, Repr

/-- Run a sequence of `start`/`stop` calls from the freshly constructed
state. -/
def runSched (ops : List SchedOp) : Sched :=
  ops.foldl
    (fun s op => match op with | SchedOp.start => s.start | SchedOp.stop => s.stop)
    Sched.init

lemma nextGrid_w (g : Grid) : (nextGrid g).w = g.w := rfl

lemma nextGrid_h (g : Grid) : (nextGrid g).h = g.h := rfl

/-- Reading a cell of a `(List.range n).map f` grid body. -/
lemma getD_range_map (n : Nat) (f : Nat → Bool) (i : Nat) (hi : i < n) :
    ((List.range n).map f).getD i false = f i := by
  rw [List.getD_eq_getElem?_getD, List.getElem?_map, List.getElem?_range hi]
  rfl

lemma index_lt_area {x y w h : Nat} (hx : x < w) (hy : y < h) :
    y * w + x < w * h := by
  calc y * w + x < y * w + w := by omega
    _ = (y + 1) * w := by ring
    _ ≤ h * w := Nat.mul_le_mul_right w hy
    _ = w * h := Nat.mul_comm h w

lemma emod_coe_of_lt {x w : Nat} (hx : x < w) : ((x : Int) % (w : Int)).toNat = x := by
  rw [← Int.natCast_mod, Int.toNat_natCast, Nat.mod_eq_of_lt hx]

/-- In-range reads of `Grid.get` are plain `cellAt` reads. -/
lemma get_eq_cellAt (g : Grid) {x y : Nat} (hx : x < g.w) (hy : y < g.h) :
    g.get x y = bitOf (g.cellAt x y) := by
  unfold Grid.get
  rw [emod_coe_of_lt hx, emod_coe_of_lt hy]

/-- Reading a cell of the next generation at in-range coordinates gives the
shader's output for that fragment. -/
lemma nextGrid_cellAt (g : Grid) {x y : Nat} (hx : x < g.w) (hy : y < g.h) :
    (nextGrid g).cellAt x y = nextValue g x y := by
  have hw : 0 < g.w := by omega
  have harea : y * g.w + x < g.w * g.h := index_lt_area hx hy
  have hmod : (y * g.w + x) % g.w = x := by
    rw [Nat.mul_comm y g.w, Nat.mul_add_mod, Nat.mod_eq_of_lt hx]
  have hdiv : (y * g.w + x) / g.w = y := by
    rw [Nat.mul_comm y g.w, Nat.mul_add_div hw, Nat.div_eq_of_lt hx, Nat.add_zero]
  show ((List.range (g.w * g.h)).map
      (fun i => nextValue g (↑(i % g.w)) (↑(i / g.w)))).getD (y * g.w + x) false = _
  rw [getD_range_map _ _ _ harea, hmod, hdiv]

/-- Claim C1: after one step, a cell is alive in the new generation iff it
had exactly 3 live neighbors in the prior front generation, or it was alive
and had exactly 2 live neighbors; every other combination yields a dead
cell.  `nextGrid` is the fragment shader `gol.frag` run over every cell. -/
theorem step_rule_iff (g : Grid) (x y : Nat) (hx : x < g.w) (hy : y < g.h) :
    (nextGrid g).cellAt x y = true ↔
      (sumNhbrs g x y = 3 ∨ (g.cellAt x y = true ∧ sumNhbrs g x y = 2)) := by
  rw [nextGrid_cellAt g hx hy]
  unfold nextValue
  rw [get_eq_cellAt g hx hy]
  cases hc : g.cellAt x y <;> simp [bitOf]

lemma emod_toNat_lt {x : Int} {w : Nat} (hw : 0 < w) : (x % (w : Int)).toNat < w := by
  have h1 : 0 ≤ x % (w : Int) := Int.emod_nonneg _ (by omega)
  have h2 : x % (w : Int) < (w : Int) := Int.emod_lt_of_pos _ (by omega)
  omega

/-- `Grid.get` is periodic with period `w` in `x` (the `gl.REPEAT` wrap). -/
lemma get_add_w (g : Grid) (x y : Int) : g.get (x + g.w) y = g.get x y := by
  unfold Grid.get
  rw [show x + (g.w : Int) = x + (g.w : Int) * 1 by ring, Int.add_mul_emod_self_left]

/-- `Grid.get` is periodic with period `h` in `y`. -/
lemma get_add_h (g : Grid) (x y : Int) : g.get x (y + g.h) = g.get x y := by
  unfold Grid.get
  rw [show y + (g.h : Int) = y + (g.h : Int) * 1 by ring, Int.add_mul_emod_self_left]

/-- Claim C2: the 8 neighbor coordinates used by the step are computed
toroidally — each sample lands at `((x+dx) mod w, (y+dy) mod h)`, which is
always in range, and the read is periodic in both axes.  The shader's
neighbor sum is exactly the sum over the 8 offsets `(dx,dy) ≠ (0,0)`.
Concretely, a single live cell at `(0,0)` on a 3×3 grid is counted by the
cells on the opposite edges: every other cell sees neighbor count 1. -/
theorem toroidal_neighbors (g : Grid) (x y dx dy : Int) (hw : 0 < g.w) (hh : 0 < g.h)
    (hd : (dx, dy) ∈ neighborOffsets) :
    g.get (x + dx) (y + dy) =
        bitOf (g.cellAt (((x + dx) % (g.w : Int)).toNat) (((y + dy) % (g.h : Int)).toNat)) ∧
      ((x + dx) % (g.w : Int)).toNat < g.w ∧
      ((y + dy) % (g.h : Int)).toNat < g.h ∧
      g.get (x + dx + g.w) (y + dy) = g.get (x + dx) (y + dy) ∧
      g.get (x + dx) (y + dy + g.h) = g.get (x + dx) (y + dy) ∧
      sumNhbrs g x y = (neighborOffsets.map (fun d => g.get (x + d.1) (y + d.2))).sum ∧
      sumNhbrs g3 2 2 = 1 ∧ sumNhbrs g3 2 0 = 1 ∧ sumNhbrs g3 2 1 = 1 ∧
      sumNhbrs g3 0 2 = 1 ∧ sumNhbrs g3 1 2 = 1 ∧ sumNhbrs g3 1 1 = 1 ∧
      sumNhbrs g3 0 0 = 0 := by
  refine ⟨rfl, emod_toNat_lt hw, emod_toNat_lt hh, get_add_w g _ _, get_add_h g _ _, ?_,
    by decide, by decide, by decide, by decide, by decide, by decide, by decide⟩
  simp only [sumNhbrs, neighborOffsets, List.map_cons, List.map_nil, List.sum_cons,
    List.sum_nil, sub_eq_add_neg, add_zero]
  omega

/-- Witness for C2 at the corner of the concrete 3×3 grid. -/
theorem toroidal_neighbors_witness :
    0 < g3.w ∧ 0 < g3.h ∧ ((-1 : Int), (-1 : Int)) ∈ neighborOffsets ∧
      (g3.get (0 + -1) (0 + -1) =
          bitOf (g3.cellAt (((0 + -1) % (g3.w : Int)).toNat) (((0 + -1) % (g3.h : Int)).toNat)) ∧
        ((0 + -1 : Int) % (g3.w : Int)).toNat < g3.w ∧
        ((0 + -1 : Int) % (g3.h : Int)).toNat < g3.h ∧
        g3.get (0 + -1 + g3.w) (0 + -1) = g3.get (0 + -1) (0 + -1) ∧
        g3.get (0 + -1) (0 + -1 + g3.h) = g3.get (0 + -1) (0 + -1) ∧
        sumNhbrs g3 0 0 = (neighborOffsets.map (fun d => g3.get (0 + d.1) (0 + d.2))).sum ∧
        sumNhbrs g3 2 2 = 1 ∧ sumNhbrs g3 2 0 = 1 ∧ sumNhbrs g3 2 1 = 1 ∧
        sumNhbrs g3 0 2 = 1 ∧ sumNhbrs g3 1 2 = 1 ∧ sumNhbrs g3 1 1 = 1 ∧
        sumNhbrs g3 0 0 = 0) :=
  ⟨by decide, by decide, by decide,
    toroidal_neighbors g3 0 0 (-1) (-1) (by decide) (by decide) (by decide)⟩

lemma stepPassAux_succ (f b : Grid) (n : Nat) :
    stepPassAux f b (n + 1) = passWrite f (stepPassAux f b n) n := by
  unfold stepPassAux
  rw [List.range_succ, List.foldl_append]
  rfl

lemma stepPassAux_w (f b : Grid) (n : Nat) : (stepPassAux f b n).w = b.w := by
  induction n with
  | zero => rfl
  | succ n ih => rw [stepPassAux_succ]; exact ih

lemma stepPassAux_h (f b : Grid) (n : Nat) : (stepPassAux f b n).h = b.h := by
  induction n with
  | zero => rfl
  | succ n ih => rw [stepPassAux_succ]; exact ih

lemma stepPassAux_length (f b : Grid) (n : Nat) :
    (stepPassAux f b n).cells.length = b.cells.length := by
  induction n with
  | zero => rfl
  | succ n ih => rw [stepPassAux_succ]; unfold passWrite; rw [List.length_set]; exact ih

/-- Every cell the pass has written holds the shader's output for the old
front; every cell it has not yet reached still holds the old back contents.
In particular no written value ever depends on the back buffer. -/
lemma stepPassAux_getElem? (f b : Grid) (n j : Nat) :
    (stepPassAux f b n).cells[j]? =
      if j < n ∧ j < b.cells.length then some (nextValue f (↑(j % f.w)) (↑(j / f.w)))
      else b.cells[j]? := by
  induction n with
  | zero =>
    simp [stepPassAux]
  | succ n ih =>
    rw [stepPassAux_succ]
    unfold passWrite
    simp only [List.getElem?_set, stepPassAux_length]
    by_cases hnj : n = j
    · subst hnj
      by_cases hlen : n < b.cells.length
      · simp [hlen]
      · simp only [if_neg hlen]
        rw [ih]
        simp only [if_neg (by omega : ¬(n < n ∧ n < b.cells.length))]
        rw [List.getElem?_eq_none (by omega)]
        simp [hlen]
    · simp only [if_neg hnj]
      rw [ih]
      have : (j < n + 1 ∧ j < b.cells.length) ↔ (j < n ∧ j < b.cells.length) := by omega
      rw [if_congr this rfl rfl]

lemma grid_eq_of_fields {g1 g2 : Grid} (hw : g1.w = g2.w) (hh : g1.h = g2.h)
    (hc : g1.cells = g2.cells) : g1 = g2 := by
  cases g1; cases g2; simp_all

/-- A complete pass over a back buffer of the right size produces exactly
the next generation of the front buffer, whatever the back held before. -/
lemma stepPassAux_complete (f b : Grid) (hw : b.w = f.w) (hh : b.h = f.h)
    (hlen : b.cells.length = f.w * f.h) :
    stepPassAux f b (f.w * f.h) = nextGrid f := by
  refine grid_eq_of_fields ?_ ?_ ?_
  · rw [stepPassAux_w, hw]; rfl
  · rw [stepPassAux_h, hh]; rfl
  · refine List.ext_getElem? fun j => ?_
    rw [stepPassAux_getElem?, hlen]
    show _ = ((List.range (f.w * f.h)).map
      (fun i => nextValue f (↑(i % f.w)) (↑(i / f.w))))[j]?
    by_cases hj : j < f.w * f.h
    · simp [List.getElem?_map, List.getElem?_range hj, hj]
    · rw [if_neg (by omega)]
      rw [List.getElem?_eq_none (by omega), List.getElem?_eq_none (by simpa using hj)]

/-- Claim C3: one `step()` reads cells only from the front buffer and writes
next-generation values only to the back buffer, and the front/back roles are
swapped only after all cells are computed.  Formally: (1) the completed step
makes the fully computed next generation of the old front the new front and
the old front the new back; (2) after any prefix of the pass the front
buffer is still the original front (no partially updated generation is ever
visible as front); (3) the result is independent of the back buffer's prior
contents (the pass never reads back). -/
theorem step_reads_front_writes_back (st : GolState) (b2 : Grid)
    (hw : st.back.w = st.front.w) (hh : st.back.h = st.front.h)
    (hlen : st.back.cells.length = st.front.w * st.front.h)
    (hw2 : b2.w = st.front.w) (hh2 : b2.h = st.front.h)
    (hlen2 : b2.cells.length = st.front.w * st.front.h) :
    GOL.step st = ⟨nextGrid st.front, st.front⟩ ∧
      (∀ n, (GolState.mk st.front (stepPassAux st.front st.back n)).front = st.front) ∧
      GOL.step ⟨st.front, b2⟩ = GOL.step st := by
  have h1 : GOL.step st = ⟨nextGrid st.front, st.front⟩ := by
    unfold GOL.step GOL.swap
    rw [stepPassAux_complete st.front st.back hw hh hlen]
  have h2 : GOL.step ⟨st.front, b2⟩ = ⟨nextGrid st.front, st.front⟩ := by
    unfold GOL.step GOL.swap
    rw [stepPassAux_complete st.front b2 hw2 hh2 hlen2]
  exact ⟨h1, fun n => rfl, by rw [h1, h2]⟩

/-- Witness for C3 on a concrete 2×2 state with differing back contents. -/
theorem step_reads_front_writes_back_witness :
    (GolState.mk ⟨2, 2, [true, true, false, false]⟩ ⟨2, 2, [false, false, false, false]⟩).back.w =
        (GolState.mk ⟨2, 2, [true, true, false, false]⟩ ⟨2, 2, [false, false, false, false]⟩).front.w ∧
      (GOL.step (GolState.mk ⟨2, 2, [true, true, false, false]⟩ ⟨2, 2, [false, false, false, false]⟩) =
          ⟨nextGrid ⟨2, 2, [true, true, false, false]⟩, ⟨2, 2, [true, true, false, false]⟩⟩ ∧
        (∀ n, (GolState.mk ⟨2, 2, [true, true, false, false]⟩
            (stepPassAux ⟨2, 2, [true, true, false, false]⟩ ⟨2, 2, [false, false, false, false]⟩ n)).front =
          ⟨2, 2, [true, true, false, false]⟩) ∧
        GOL.step ⟨⟨2, 2, [true, true, false, false]⟩, ⟨2, 2, [true, true, true, true]⟩⟩ =
          GOL.step (GolState.mk ⟨2, 2, [true, true, false, false]⟩ ⟨2, 2, [false, false, false, false]⟩)) :=
  ⟨by decide,
    step_reads_front_writes_back
      (GolState.mk ⟨2, 2, [true, true, false, false]⟩ ⟨2, 2, [false, false, false, false]⟩)
      ⟨2, 2, [true, true, true, true]⟩
      (by decide) (by decide) (by decide) (by decide) (by decide) (by decide)⟩

lemma compactAux_succ (s : List Bool) (n : Nat) :
    compactAux s (n + 1) = compactF s (compactAux s n) n := by
  unfold compactAux
  rw [List.range_succ, List.foldl_append]
  rfl

lemma compactAux_length (s : List Bool) (n : Nat) :
    (compactAux s n).length = s.length / 8 := by
  induction n with
  | zero => simp [compactAux]
  | succ n ih => rw [compactAux_succ]; unfold compactF; rw [List.length_set]; exact ih

lemma testBit_bitOf (b : Bool) (k : Nat) : (bitOf b).testBit k = (b && decide (k = 0)) := by
  cases b with
  | false => simp [bitOf, Nat.zero_testBit]
  | true =>
    cases k with
    | zero => rfl
    | succ k =>
      simp only [bitOf, if_pos rfl, Nat.testBit_succ]
      norm_num [Nat.zero_testBit]

/-- Bit `k` of byte `j` of the partially built packed array is exactly bit
`8*j + k` of the input, provided the loop has reached it. -/
lemma compactAux_testBit (s : List Bool) (n j k : Nat) (hj : j < s.length / 8) (hk : k < 8) :
    ((compactAux s n).getD j 0).testBit k =
      (decide (8 * j + k < n) && s.getD (8 * j + k) false) := by
  induction n with
  | zero =>
    have h0 : (compactAux s 0).getD j 0 = 0 := by
      simp [compactAux, List.getD_eq_getElem?_getD, List.getElem?_replicate, hj]
    rw [h0, Nat.zero_testBit]
    simp
  | succ n ih =>
    rw [compactAux_succ]
    unfold compactF
    rw [List.getD_eq_getElem?_getD, List.getElem?_set, compactAux_length]
    by_cases hje : n / 8 = j
    · subst hje
      rw [if_pos rfl, if_pos hj, Option.getD_some, Nat.testBit_lor, Nat.testBit_shiftLeft,
        testBit_bitOf, ih]
      by_cases hkn : k = n % 8
      · have h8 : 8 * (n / 8) + k = n := by omega
        rw [h8]
        have h1 : ¬(n < n) := by omega
        have h2 : k ≥ n % 8 := by omega
        have h3 : k - n % 8 = 0 := by omega
        simp [h1, h2, h3]
      · have hlt : (8 * (n / 8) + k < n + 1) ↔ (8 * (n / 8) + k < n) := by omega
        have hdead : (decide (k ≥ n % 8) && (s.getD n false && decide (k - n % 8 = 0))) = false := by
          rcases Nat.lt_or_ge k (n % 8) with h | h
          · simp [Nat.not_le.mpr h]
          · have : k - n % 8 ≠ 0 := by omega
            simp [this]
        rw [hdead, Bool.or_false]
        simp only [hlt]
    · rw [if_neg hje, ← List.getD_eq_getElem?_getD, ih]
      have hlt : (8 * j + k < n + 1) ↔ (8 * j + k < n) := by omega
      simp only [hlt]

/-- Bit extraction from the finished `GOL.compact` output. -/
lemma compact_testBit (s : List Bool) (j k : Nat) (hj : j < s.length / 8) (hk : k < 8) :
    ((GOL.compact s).getD j 0).testBit k = s.getD (8 * j + k) false := by
  unfold GOL.compact
  rw [compactAux_testBit s s.length j k hj hk]
  have : 8 * j + k < s.length := by omega
  simp [this]

lemma compact_length (s : List Bool) : (GOL.compact s).length = s.length / 8 :=
  compactAux_length s s.length

/-- The byte-read of `GOL.expand` is a `testBit`. -/
lemma shiftRight_and_one (x k : Nat) : (((x >>> k) &&& 1) == 1) = x.testBit k := by
  rw [Nat.shiftRight_eq_div_pow, Nat.and_one_is_mod, Nat.testBit_to_div_mod]
  cases h : (x / 2 ^ k % 2 == 1) <;> cases h2 : decide (x / 2 ^ k % 2 = 1) <;> simp_all

/-- Claim C4: for every boolean array whose length is a multiple of 8,
`expand (compact S) = S` — bit `i` of the packed stream sits at bit
position `i % 8` of byte `i / 8` and is recovered exactly. -/
theorem expand_compact_roundtrip (s : List Bool) (h8 : s.length % 8 = 0) :
    GOL.expand (GOL.compact s) = s := by
  have hm : s.length / 8 * 8 = s.length := by omega
  refine List.ext_getElem? fun i => ?_
  unfold GOL.expand
  rw [compact_length, hm]
  by_cases hi : i < s.length
  · rw [List.getElem?_map, List.getElem?_range hi, Option.map_some']
    have hj : i / 8 < s.length / 8 := by omega
    have hk : i % 8 < 8 := by omega
    rw [List.getElem?_eq_getElem hi]
    rw [shiftRight_and_one, compact_testBit s _ _ hj hk]
    have hik : 8 * (i / 8) + i % 8 = i := by omega
    rw [hik]
    rw [List.getD_eq_getElem?_getD, List.getElem?_eq_getElem hi]
    rfl
  · rw [List.getElem?_eq_none (by simpa using (by omega : ¬(i < s.length))),
      List.getElem?_eq_none (by omega)]

/-- Witness for C4 on a concrete 8-bit state. -/
theorem expand_compact_roundtrip_witness :
    (([true, false, true, true, false, false, false, true] : List Bool)).length % 8 = 0 ∧
      GOL.expand (GOL.compact [true, false, true, true, false, false, false, true]) =
        [true, false, true, true, false, false, false, true] :=
  ⟨by decide, expand_compact_roundtrip [true, false, true, true, false, false, false, true]
    (by decide)⟩

/-- Counterexample for C5: on a 9-element state, `compact` allocates
`new Uint8Array(9 / 8)`, and JavaScript `ToIndex` truncates `1.125` to 1,
so the output has ⌊9/8⌋ = 1 byte, not ⌈9/8⌉ = 2 bytes. -/
theorem compact_length_not_ceil :
    (GOL.compact (List.replicate 9 true)).length ≠ (9 + 7) / 8 := by decide

/-- Claim C5 (amended): `compact` on a boolean array of length `N` returns
`⌊N/8⌋` bytes — trailing bits past the last full byte are dropped, there is
no partial final byte — and byte `i` holds bit `j = i*8 + k` of the state
at bit position `k` for `k = 0..7`. -/
theorem compact_floor_bytes (s : List Bool) (j k : Nat) (hj : j < s.length / 8) (hk : k < 8) :
    (GOL.compact s).length = s.length / 8 ∧
      ((GOL.compact s).getD j 0).testBit k = s.getD (8 * j + k) false :=
  ⟨compact_length s, compact_testBit s j k hj hk⟩

/-- Witness for the amended C5 on the 9-element state. -/
theorem compact_floor_bytes_witness :
    (0 : Nat) < (List.replicate 9 true).length / 8 ∧ (3 : Nat) < 8 ∧
      ((GOL.compact (List.replicate 9 true)).length = (List.replicate 9 true).length / 8 ∧
        ((GOL.compact (List.replicate 9 true)).getD 0 0).testBit 3 =
          (List.replicate 9 true).getD (8 * 0 + 3) false) :=
  ⟨by decide, by decide, compact_floor_bytes (List.replicate 9 true) 0 3 (by decide) (by decide)⟩

lemma rgbaAux_succ (area : Nat) (s : List Bool) (n : Nat) :
    rgbaAux area s (n + 1) = rgbaF s (rgbaAux area s n) n := by
  unfold rgbaAux
  rw [List.range_succ, List.foldl_append]
  rfl

lemma rgbaAux_length (area : Nat) (s : List Bool) (n : Nat) :
    (rgbaAux area s n).length = area * 4 := by
  induction n with
  | zero => simp [rgbaAux]
  | succ n ih =>
    rw [rgbaAux_succ]
    unfold rgbaF
    rw [List.length_set, List.length_set, List.length_set, List.length_set]
    exact ih

/-- The red byte of cell `j` in the staging buffer: 255 or 0 according to
`state[j]` once the loop has passed `j`, 0 before. -/
lemma rgbaAux_getD (area : Nat) (s : List Bool) (n j : Nat) (hj : j < area) :
    (rgbaAux area s n).getD (4 * j) 0 = if j < n then v255 (s.getD j false) else 0 := by
  induction n with
  | zero =>
    simp [rgbaAux, List.getD_eq_getElem?_getD, List.getElem?_replicate,
      show 4 * j < area * 4 by omega]
  | succ n ih =>
    rw [rgbaAux_succ]
    unfold rgbaF
    rw [List.getD_eq_getElem?_getD,
      List.getElem?_set_ne (by omega), List.getElem?_set_ne (by omega),
      List.getElem?_set_ne (by omega), List.getElem?_set]
    by_cases hnj : n = j
    · subst hnj
      rw [if_pos rfl, if_pos (by rw [rgbaAux_length]; omega)]
      simp
    · rw [if_neg (by omega : ¬(4 * n = 4 * j)), ← List.getD_eq_getElem?_getD, ih]
      have : (j < n + 1) ↔ (j < n) := by omega
      simp only [this]

/-- The front buffer written by `GOL.set`: cell `j` holds `state[j]` where
the input covers it and is dead past the input's end. -/
lemma set_front_cells (st : GolState) (s : List Bool) :
    (GOL.set st s).front.cells =
      (List.range (st.front.w * st.front.h)).map
        (fun j => if j < s.length then s.getD j false else false) := by
  unfold GOL.set
  refine List.map_congr_left fun j hj => ?_
  rw [List.mem_range] at hj
  rw [rgbaAux_getD _ _ _ _ hj]
  by_cases hjs : j < s.length
  · rw [if_pos hjs, if_pos hjs]
    cases s.getD j false <;> simp [v255]
  · rw [if_neg hjs, if_neg hjs]
    rfl

lemma golState_eq_of_fields {s1 s2 : GolState} (hf : s1.front = s2.front) (hb : s1.back = s2.back) :
    s1 = s2 := by
  cases s1; cases s2; simp_all

/-- Row-major cell indices are injective in both coordinates. -/
lemma rowmajor_inj {a b c d w : Nat} (ha : a < w) (hc : c < w)
    (h : b * w + a = d * w + c) : a = c ∧ b = d := by
  have h1 : (b * w + a) % w = a := by
    rw [Nat.mul_comm, Nat.mul_add_mod, Nat.mod_eq_of_lt ha]
  have h2 : (d * w + c) % w = c := by
    rw [Nat.mul_comm, Nat.mul_add_mod, Nat.mod_eq_of_lt hc]
  have h3 : a = c := by rw [← h1, ← h2, h]
  refine ⟨h3, ?_⟩
  have hw : 0 < w := by omega
  have h4 : (b * w + a) / w = b := by
    rw [Nat.mul_comm, Nat.mul_add_div hw, Nat.div_eq_of_lt ha, Nat.add_zero]
  have h5 : (d * w + c) / w = d := by
    rw [Nat.mul_comm, Nat.mul_add_div hw, Nat.div_eq_of_lt hc, Nat.add_zero]
  rw [← h4, ← h5, h]

/-- Counterexample to C6: `poke(-1, 0, true)` and `poke(width, 0, true)` do
NOT fail — `GOL.prototype.poke` has no bounds check and no error path; both
calls return normally (the texture layer drops the out-of-range write, so
the state is unchanged, but no `OutOfBounds` failure exists in the code). -/
theorem poke_no_bounds_failure :
    GOL.poke st3 (-1) 0 true = st3 ∧ GOL.poke st3 3 0 true = st3 := by
  constructor <;> rfl

/-- Claim C6 (amended): `poke` never fails; for `x ∉ [0,w)` or `y ∉ [0,h)`
the texture update is rejected by the graphics layer and the state is
returned unchanged, and for in-range coordinates exactly the addressed cell
of the front buffer is set. -/
theorem poke_amended (st : GolState) (x y : Int) (b : Bool) (i j : Nat)
    (hlen : st.front.cells.length = st.front.w * st.front.h)
    (hi : i < st.front.w) (hj : j < st.front.h) :
    (¬(0 ≤ x ∧ x < (st.front.w : Int) ∧ 0 ≤ y ∧ y < (st.front.h : Int)) →
        GOL.poke st x y b = st) ∧
      (GOL.poke st x y b).back = st.back ∧
      (0 ≤ x → x < (st.front.w : Int) → 0 ≤ y → y < (st.front.h : Int) →
        (GOL.poke st x y b).front.cellAt i j =
          if (i : Int) = x ∧ (j : Int) = y then b else st.front.cellAt i j) := by
  refine ⟨?_, rfl, ?_⟩
  · intro hout
    unfold GOL.poke subsetTexel
    rw [if_neg (by omega)]
  · intro hx0 hxw hy0 hyh
    unfold GOL.poke subsetTexel
    rw [if_pos (by omega)]
    show (st.front.cells.set (y.toNat * st.front.w + x.toNat) b).getD
        (j * st.front.w + i) false = _
    have hxw' : x.toNat < st.front.w := by omega
    have hyh' : y.toNat < st.front.h := by omega
    rw [List.getD_eq_getElem?_getD, List.getElem?_set]
    by_cases heq : y.toNat * st.front.w + x.toNat = j * st.front.w + i
    · obtain ⟨hxi, hyj⟩ := rowmajor_inj hxw' hi heq
      rw [if_pos heq, if_pos (by rw [hlen]; exact index_lt_area hxw' hyh')]
      rw [if_pos (by omega)]
      rfl
    · have hcond : ¬((i : Int) = x ∧ (j : Int) = y) := by
        rintro ⟨hix, hjy⟩
        refine heq ?_
        have h1 : x.toNat = i := by omega
        have h2 : y.toNat = j := by omega
        rw [h1, h2]
      rw [if_neg heq, if_neg hcond, ← List.getD_eq_getElem?_getD]
      rfl

/-- Witness for the amended C6 on the concrete 3×3 state. -/
theorem poke_amended_witness :
    st3.front.cells.length = st3.front.w * st3.front.h ∧ 1 < st3.front.w ∧ 1 < st3.front.h ∧
      ((¬((0 : Int) ≤ 1 ∧ (1 : Int) < (st3.front.w : Int) ∧ (0 : Int) ≤ 1 ∧
            (1 : Int) < (st3.front.h : Int)) → GOL.poke st3 1 1 true = st3) ∧
        (GOL.poke st3 1 1 true).back = st3.back ∧
        ((0 : Int) ≤ 1 → (1 : Int) < (st3.front.w : Int) → (0 : Int) ≤ 1 →
          (1 : Int) < (st3.front.h : Int) →
          (GOL.poke st3 1 1 true).front.cellAt 1 1 =
            if ((1 : Nat) : Int) = 1 ∧ ((1 : Nat) : Int) = 1 then true
            else st3.front.cellAt 1 1)) :=
  ⟨by decide, by decide, by decide,
    poke_amended st3 1 1 true 1 1 (by decide) (by decide) (by decide)⟩

/-- Counterexample to C7: `set` with an input shorter than `width*height`
does not fail with `SizeMismatch` and does not leave the state unchanged —
it overwrites the whole front buffer, filling the uncovered cells with dead
values. -/
theorem set_no_size_check :
    GOL.set st2 [true, true] ≠ st2 ∧
      (GOL.set st2 [true, true]).front.cells = [true, true, false, false] := by
  constructor
  · decide
  · decide

/-- Claim C7 (amended): `set(values)` always overwrites the front buffer
entirely — cell `j` becomes `values[j]` for `j < values.length` and dead
otherwise (excess input is ignored) — no length check is performed, and
when the length matches `width*height` the new front is exactly `values`.
The back buffer is untouched. -/
theorem set_overwrites_front (st : GolState) (s : List Bool) :
    (GOL.set st s).front.w = st.front.w ∧ (GOL.set st s).front.h = st.front.h ∧
      (GOL.set st s).front.cells =
        (List.range (st.front.w * st.front.h)).map
          (fun j => if j < s.length then s.getD j false else false) ∧
      (GOL.set st s).back = st.back ∧
      (s.length = st.front.w * st.front.h → (GOL.set st s).front.cells = s) := by
  refine ⟨rfl, rfl, set_front_cells st s, rfl, fun hlen => ?_⟩
  rw [set_front_cells st s, ← hlen]
  refine List.ext_getElem? fun i => ?_
  by_cases hi : i < s.length
  · rw [List.getElem?_map, List.getElem?_range hi, Option.map_some', if_pos hi,
      List.getD_eq_getElem?_getD, List.getElem?_eq_getElem hi]
    rfl
  · rw [List.getElem?_eq_none (by simpa using hi), List.getElem?_eq_none (by omega)]

/-- Witness for the amended C7 on the concrete 2×2 state. -/
theorem set_overwrites_front_witness :
    (GOL.set st2 [true, true]).front.w = st2.front.w ∧
      (GOL.set st2 [true, true]).front.h = st2.front.h ∧
      (GOL.set st2 [true, true]).front.cells =
        (List.range (st2.front.w * st2.front.h)).map
          (fun j => if j < ([true, true] : List Bool).length then
            ([true, true] : List Bool).getD j false else false) ∧
      (GOL.set st2 [true, true]).back = st2.back ∧
      (([true, true] : List Bool).length = st2.front.w * st2.front.h →
        (GOL.set st2 [true, true]).front.cells = [true, true]) :=
  set_overwrites_front st2 [true, true]

/-- Claim C8: `setRandom` defaults `p` to 0.5 when it is `null`, sets cell
`i` alive exactly when the `i`-th draw of the random source is below `p`,
and is a pure function of `(p, rng)` and the grid dimensions — two calls
with the same draw stream and the same `p` produce identical front buffers,
which is what makes seeded tests deterministic. -/
theorem setRandom_deterministic (st st' : GolState) (rng : Nat → ℚ) (p : Option ℚ) (j : Nat)
    (hj : j < st.front.w * st.front.h)
    (hw : st'.front.w = st.front.w) (hh : st'.front.h = st.front.h) :
    GOL.setRandom st rng none = GOL.setRandom st rng (some (1 / 2)) ∧
      (GOL.setRandom st rng p).front.cells.getD j false = decide (rng j < p.getD (1 / 2)) ∧
      (GOL.setRandom st' rng p).front.cells = (GOL.setRandom st rng p).front.cells := by
  refine ⟨rfl, ?_, ?_⟩
  · unfold GOL.setRandom
    rw [set_front_cells, getD_range_map _ _ _ hj]
    have hlen : ((List.range (st.front.w * st.front.h)).map
        (fun i => decide (rng i < p.getD (1 / 2)))).length = st.front.w * st.front.h := by
      rw [List.length_map, List.length_range]
    rw [hlen, if_pos hj, getD_range_map _ _ _ hj]
  · unfold GOL.setRandom
    rw [set_front_cells, set_front_cells, hw, hh]

/-- Witness for C8 on the concrete 2×2 state and an explicit draw stream. -/
theorem setRandom_deterministic_witness :
    (0 : Nat) < st2.front.w * st2.front.h ∧ st3.front.w = st2.front.w + 1 ∧
      (GOL.setRandom st2 (fun i => if i = 0 then 0 else 1) none =
          GOL.setRandom st2 (fun i => if i = 0 then 0 else 1) (some (1 / 2)) ∧
        (GOL.setRandom st2 (fun i => if i = 0 then 0 else 1) none).front.cells.getD 0 false =
          decide ((if (0 : Nat) = 0 then (0 : ℚ) else 1) < (none : Option ℚ).getD (1 / 2)) ∧
        (GOL.setRandom st2 (fun i => if i = 0 then 0 else 1) none).front.cells =
          (GOL.setRandom st2 (fun i => if i = 0 then 0 else 1) none).front.cells) :=
  ⟨by decide, by decide,
    setRandom_deterministic st2 st2 (fun i => if i = 0 then 0 else 1) none 0
      (by decide) rfl rfl⟩

lemma sched_inv_start (s : Sched) (hs : s.active = s.timer.toList) :
    s.start.active = s.start.timer.toList := by
  unfold Sched.start
  by_cases h : s.timer = none
  · rw [if_pos h]
    rw [h] at hs
    simp [hs]
  · rw [if_neg h]
    exact hs

lemma sched_inv_stop (s : Sched) (hs : s.active = s.timer.toList) :
    s.stop.active = s.stop.timer.toList := by
  unfold Sched.stop
  cases ht : s.timer with
  | none => rw [ht] at hs; simpa using hs
  | some t => rw [ht] at hs; simp [hs]

/-- Claim C9: any sequence of `start`/`stop` calls leaves at most one
active interval: `start` while running schedules nothing new, and `stop`
cancels the stored interval, so the set of scheduled intervals always
equals the stored handle — never two overlapping timers. -/
theorem scheduler_at_most_one_timer (ops : List SchedOp) :
    (runSched ops).active = (runSched ops).timer.toList ∧
      (runSched ops).active.length ≤ 1 := by
  have key : ∀ (l : List SchedOp) (s : Sched), s.active = s.timer.toList →
      (l.foldl (fun s op => match op with
        | SchedOp.start => s.start | SchedOp.stop => s.stop) s).active =
      (l.foldl (fun s op => match op with
        | SchedOp.start => s.start | SchedOp.stop => s.stop) s).timer.toList := by
    intro l
    induction l with
    | nil => intro s hs; exact hs
    | cons op l ih =>
      intro s hs
      cases op with
      | start => exact ih _ (sched_inv_start s hs)
      | stop => exact ih _ (sched_inv_stop s hs)
  have h : (runSched ops).active = (runSched ops).timer.toList := key ops Sched.init rfl
  refine ⟨h, ?_⟩
  rw [h]
  cases (runSched ops).timer <;> simp

/-- Claim C10: every direct mutation outside `step()` — `set`, `poke`,
`setRandom` and `setEmpty` — writes only the front texture; the back
texture is untouched by each of them. -/
theorem mutations_leave_back_unchanged (st : GolState) (v : List Bool) (x y : Int) (b : Bool)
    (rng : Nat → ℚ) (p : Option ℚ) :
    (GOL.set st v).back = st.back ∧ (GOL.poke st x y b).back = st.back ∧
      (GOL.setRandom st rng p).back = st.back ∧ (GOL.setEmpty st).back = st.back :=
  ⟨rfl, rfl, rfl, rfl⟩

/-- Witness for C1: a live cell with two live neighbors on a concrete grid. -/
theorem step_rule_iff_witness :
    (1 : Nat) < 3 ∧ (1 : Nat) < 3 ∧
      ((nextGrid ⟨3, 3, [true, true, true, false, false, false, false, false, false]⟩).cellAt 1 1 = true ↔
        (sumNhbrs ⟨3, 3, [true, true, true, false, false, false, false, false, false]⟩ 1 1 = 3 ∨
          ((Grid.cellAt ⟨3, 3, [true, true, true, false, false, false, false, false, false]⟩ 1 1) = true ∧
            sumNhbrs ⟨3, 3, [true, true, true, false, false, false, false, false, false]⟩ 1 1 = 2))) :=
  ⟨by decide, by decide,
    step_rule_iff ⟨3, 3, [true, true, true, false, false, false, false, false, false]⟩ 1 1
      (by decide) (by decide)⟩
